import Mathlib

/-!
# Verification of the device-coap-c request pipeline

A shallow embedding of `src/c/coap-server.c` (CoAP server for the EdgeX
device-coap service): the typed payload decoders (`read_data_float64`,
`read_data_int32`, `read_data_string`), the URI path router (`parse_path`),
the request handler (`data_handler`), and the configuration step
(`find_security_mode` / `coap_init`).

Modelling conventions:
* Byte buffers and C strings are `List Char` (the source only ever treats
  payload bytes as ASCII text).  A buffer handed to a decoder is copied and
  NUL-terminated by the C code, so the string the libc scanners actually see
  is the prefix of the buffer up to the first NUL byte (`cstr`).
* `strtol`/`strtod` are modelled by executable scanners (`strtol10`,
  `strtodM`) that follow the C17 subject-sequence grammar: optional
  whitespace, optional sign, digits (for `strtod` also fraction, decimal or
  hex mantissa with binary exponent, and the `inf`/`nan` forms).  `errno`
  is modelled by the `erange` flag.  The numeric value of a float literal is
  kept as an exact rational (IEEE rounding is not modelled; no theorem below
  depends on the rounded value, only on acceptance/rejection and on the
  exact zero of an empty parse).  The ERANGE over/underflow test is decided
  on the decimal (resp. binary) order of magnitude of the exact value
  against the double range; this matches libc except possibly within one
  order of magnitude of the boundary, which no theorem below exercises.
* Side effects of the handler (registry lookups, device-handle
  acquisition/release, publish calls, log lines) are returned as explicit
  counters and event lists in the result records.  `edgex_free_device`
  applied to a NULL device is a no-op and is not counted as a release.
* Response codes use libcoap's `COAP_RESPONSE_CODE` encoding
  `(class * 32 + detail)`.
-/

/-- Log severities used by the server (`iot_log_debug/info/error`). -/
inductive LogLevel where
  | debug
  | info
  | error
deriving DecidableEq, Repr

/-- A log line: severity plus the (fixed part of the) message. -/
abbrev LogEvent := LogLevel × String

/-- EdgeX value kinds dispatched on by `data_handler`'s switch
(`Edgex_Float64`, `Edgex_Int32`, `Edgex_String`); `eOther` stands for every
other member of the C enum, all of which reach the `default` branch. -/
inductive EdgexValType where
  | eFloat64
  | eInt32
  | eString
  | eOther (n : Nat)
deriving DecidableEq, Repr

/-- One entry of a profile's `device_resources` list
(`edgex_deviceresource`: `name` plus `properties->type`). -/
structure DeviceResource where
  name : List Char
  type : EdgexValType
deriving DecidableEq, Repr

/-- One `edgex_deviceprofile` link: its `device_resources` list. -/
structure DeviceProfile where
  device_resources : List DeviceResource
deriving DecidableEq, Repr

/-- An `edgex_device`: its name and its profile chain
(`device->profile`, linked by `profile->next`). -/
structure Device where
  name : List Char
  profile : List DeviceProfile
deriving DecidableEq, Repr

/-- Exact model of a C `double` produced by `strtod`: a finite exact
rational, a signed infinity (`HUGE_VAL`), or NaN. -/
inductive FloatVal where
  | fin (q : ℚ)
  | inf (neg : Bool)
  | nan
deriving DecidableEq, Repr

/-- The typed values built by the decoders (`iot_data_alloc_f64/i32/string`). -/
inductive IotData where
  | f64 (v : FloatVal)
  | i32 (v : Int)
  | str (s : List Char)
deriving DecidableEq, Repr

/-! ## Constants from the source -/

/-- `#define RESOURCE_SEG1 "a1r"`. -/
def RESOURCE_SEG1 : List Char := "a1r".data

/-- `#define MSG_PAYLOAD_INVALID "payload not valid"`. -/
def MSG_PAYLOAD_INVALID : List Char := "payload not valid".data

/-- `#define CONTENT_FORMAT_UNDEFINED UINT16_MAX`. -/
def CONTENT_FORMAT_UNDEFINED : Nat := 65535

/-- libcoap `COAP_MEDIATYPE_TEXT_PLAIN` (= 0). -/
def COAP_MEDIATYPE_TEXT_PLAIN : Nat := 0

/-- libcoap `COAP_MEDIATYPE_APPLICATION_JSON` (= 50). -/
def COAP_MEDIATYPE_APPLICATION_JSON : Nat := 50

/-- libcoap `COAP_RESPONSE_CODE(N) = ((N)/100 << 5) | ((N)%100)`. -/
def COAP_RESPONSE_CODE (n : Nat) : Nat := (n / 100) * 32 + n % 100

/-- `#define INT32_STR_MAXLEN 11`. -/
def INT32_STR_MAXLEN : Nat := 11

/-- `#define FLOAT64_STR_MAXLEN 24`. -/
def FLOAT64_STR_MAXLEN : Nat := 24

/-- `INT32_MAX`. -/
def INT32_MAX : Int := 2147483647

/-- `INT32_MIN`. -/
def INT32_MIN : Int := -2147483648

/-- `LONG_MAX` on the 64-bit build targets (alpine x86-64). -/
def LONG_MAX : Int := 9223372036854775807

/-- `LONG_MIN` on the 64-bit build targets. -/
def LONG_MIN : Int := -9223372036854775808

/-! ## C-string helpers -/

/-- The C string obtained from a byte buffer after the source copies it into
a NUL-terminated scratch array: everything up to the first NUL byte. -/
def cstr (data : List Char) : List Char := data.takeWhile (fun c => c ≠ '\x00')

/-- `isspace` in the C locale: the six standard whitespace characters. -/
def isSpaceC (c : Char) : Bool :=
  c = ' ' || c = '\t' || c = '\n' || c = '\r' || c = '\x0b' || c = '\x0c'

/-- `isdigit` in the C locale: ASCII `'0'`..`'9'`. -/
def isDigitC (c : Char) : Bool := 48 ≤ c.toNat && c.toNat ≤ 57

/-- Numeric value of a run of ASCII decimal digits, most significant first
(the accumulation loop every libc integer scanner performs). -/
def natVal (ds : List Char) : Nat :=
  ds.foldl (fun a c => a * 10 + (c.toNat - 48)) 0

/-- Split an optional leading sign off a numeric subject sequence: whether
the sign is negative, and the input after the sign. -/
def splitSign (s : List Char) : Bool × List Char :=
  match s with
  | [] => (false, [])
  | c :: t => if c = '-' then (true, t) else if c = '+' then (false, t) else (false, c :: t)

/-! ## `strtol` model and the Int32 decoder -/

/-- Result of a libc numeric scan: the converted value, the remaining input
(from `endptr` on; on no conversion this is the whole original input), and
whether `errno` was set to `ERANGE`. -/
structure LScan where
  value : Int
  rest : List Char
  erange : Bool
deriving DecidableEq, Repr

/-- Model of `strtol (s, &endptr, 10)`: skip whitespace, optional sign, a
nonempty digit run; clamps to `long` range with `ERANGE`; on no conversion
returns 0 with `endptr` at the start of the input. -/
def strtol10 (s : List Char) : LScan :=
  let signed := splitSign (s.dropWhile isSpaceC)
  let ds := signed.2.takeWhile isDigitC
  let rest := signed.2.dropWhile isDigitC
  if ds = [] then ⟨0, s, false⟩
  else
    let v : Int := if signed.1 then -(natVal ds : Int) else (natVal ds : Int)
    if v > LONG_MAX then ⟨LONG_MAX, rest, true⟩
    else if v < LONG_MIN then ⟨LONG_MIN, rest, true⟩
    else ⟨v, rest, false⟩

/-- `read_data_int32` from the source: reject buffers longer than
`INT32_STR_MAXLEN`, NUL-terminate, `strtol` base 10, reject on `errno`, on a
partial parse (`*endptr != '\0'`), and on values outside the `int32` range. -/
def read_data_int32 (data : List Char) : Option Int :=
  if data.length > INT32_STR_MAXLEN then none
  else
    let r := strtol10 (cstr data)
    if r.erange ∨ r.rest ≠ [] ∨ r.value < INT32_MIN ∨ r.value > INT32_MAX then none
    else some r.value

/-! ## `strtod` model and the Float64 decoder -/

/-- Result of the `strtod` scan, mirrors `LScan` with a double value. -/
structure FScan where
  value : FloatVal
  rest : List Char
  erange : Bool
deriving DecidableEq, Repr

/-- Digit count of a natural number, with a structural fuel so that concrete
instances reduce in the kernel. -/
def numDigitsAux : Nat → Nat → Nat
  | 0, _ => 1
  | fuel + 1, n => if n < 10 then 1 else numDigitsAux fuel (n / 10) + 1

/-- Number of decimal digits of `n` (1 for 0). -/
def numDigits (n : Nat) : Nat := numDigitsAux n n

/-- Bit count of a natural number, fuelled like `numDigitsAux`. -/
def numBitsAux : Nat → Nat → Nat
  | 0, _ => 1
  | fuel + 1, n => if n < 2 then 1 else numBitsAux fuel (n / 2) + 1

/-- Number of binary digits of `n` (1 for 0). -/
def numBits (n : Nat) : Nat := numBitsAux n n

/-- Exact rational `sign * d * 10 ^ e`. -/
def qOfDec (neg : Bool) (d : Nat) (e : Int) : ℚ :=
  let m : ℚ := if e ≥ 0 then (d : ℚ) * (10 : ℚ) ^ e.toNat else (d : ℚ) / (10 : ℚ) ^ (-e).toNat
  if neg then -m else m

/-- Exact rational `sign * d * 2 ^ e`. -/
def qOfBin (neg : Bool) (d : Nat) (e : Int) : ℚ :=
  let m : ℚ := if e ≥ 0 then (d : ℚ) * (2 : ℚ) ^ e.toNat else (d : ℚ) / (2 : ℚ) ^ (-e).toNat
  if neg then -m else m

/-- Finish a decimal `strtod` conversion of `sign * d * 10 ^ e`: detect
over/underflow of the double range by decimal order of magnitude
(`DBL_MAX` is just under `1.8e308`, the smallest subnormal just under
`5e-324`); overflow yields `HUGE_VAL` with `ERANGE`, underflow 0 with
`ERANGE`, otherwise the exact value. -/
def mkFinDec (neg : Bool) (d : Nat) (e : Int) (rest : List Char) : FScan :=
  if d = 0 then ⟨.fin 0, rest, false⟩
  else if (numDigits d : Int) + e > 309 then ⟨.inf neg, rest, true⟩
  else if (numDigits d : Int) + e < -323 then ⟨.fin 0, rest, true⟩
  else ⟨.fin (qOfDec neg d e), rest, false⟩

/-- Finish a hexadecimal `strtod` conversion of `sign * d * 2 ^ e`, binary
order of magnitude against `DBL_MAX < 2^1024` and the smallest subnormal
`2^-1074`. -/
def mkFinHex (neg : Bool) (d : Nat) (e : Int) (rest : List Char) : FScan :=
  if d = 0 then ⟨.fin 0, rest, false⟩
  else if (numBits d : Int) + e > 1025 then ⟨.inf neg, rest, true⟩
  else if (numBits d : Int) + e < -1075 then ⟨.fin 0, rest, true⟩
  else ⟨.fin (qOfBin neg d e), rest, false⟩

/-- Value of an ASCII hex digit, `none` for non-hex-digits. -/
def hexVal (c : Char) : Option Nat :=
  if '0' ≤ c ∧ c ≤ '9' then some (c.toNat - 48)
  else if 'a' ≤ c ∧ c ≤ 'f' then some (c.toNat - 87)
  else if 'A' ≤ c ∧ c ≤ 'F' then some (c.toNat - 55)
  else none

/-- Whether `c` is an ASCII hex digit. -/
def isHexDigit (c : Char) : Bool := (hexVal c).isSome

/-- Numeric value of a run of hex digits, most significant first. -/
def hexNatVal (ds : List Char) : Nat :=
  ds.foldl (fun a c => a * 16 + ((hexVal c).getD 0)) 0

/-- Case-insensitive match of a (lowercase) pattern against the front of the
input. -/
def matchesCI : List Char → List Char → Bool
  | [], _ => true
  | _ :: _, [] => false
  | p :: ps, c :: cs => (c.toLower = p) && matchesCI ps cs

/-- Characters allowed in a `nan(n-char-sequence)`. -/
def isNanChar (c : Char) : Bool := c.isAlphanum || c = '_'

/-- Consume an optional `(n-char-sequence)` after `nan`; if the closing
parenthesis is missing the sequence is not consumed at all. -/
def nanSeq (t : List Char) : List Char :=
  match t with
  | '(' :: u =>
    (match u.dropWhile isNanChar with
     | ')' :: v => v
     | _ => t)
  | _ => t

/-- Scan an optional decimal exponent part `e|E [sign] digits`; when the
digits are missing the whole part is left unconsumed (C17 semantics: the
subject sequence ends at the mantissa). Returns the signed exponent and the
remaining input. -/
def expScan (t : List Char) : Int × List Char :=
  match t with
  | c :: u =>
    if c = 'e' ∨ c = 'E' then
      let signed := splitSign u
      let ds := signed.2.takeWhile isDigitC
      if ds = [] then (0, t)
      else ((if signed.1 then -(natVal ds : Int) else (natVal ds : Int)),
            signed.2.dropWhile isDigitC)
    else (0, t)
  | [] => (0, [])

/-- Scan an optional binary exponent part `p|P [sign] digits` of a hex
float. -/
def pExpScan (t : List Char) : Int × List Char :=
  match t with
  | c :: u =>
    if c = 'p' ∨ c = 'P' then
      let signed := splitSign u
      let ds := signed.2.takeWhile isDigitC
      if ds = [] then (0, t)
      else ((if signed.1 then -(natVal ds : Int) else (natVal ds : Int)),
            signed.2.dropWhile isDigitC)
    else (0, t)
  | [] => (0, [])

/-- Scan a decimal mantissa `digits [. digits] [exp]` starting at `t`; on no
digits at all the conversion is empty and `endptr` is the original input
`orig`. -/
def decScan (neg : Bool) (t : List Char) (orig : List Char) : FScan :=
  let ipart := t.takeWhile isDigitC
  let t1 := t.dropWhile isDigitC
  let fparts : List Char × List Char :=
    match t1 with
    | '.' :: u => (u.takeWhile isDigitC, u.dropWhile isDigitC)
    | _ => ([], t1)
  if ipart = [] ∧ fparts.1 = [] then ⟨.fin 0, orig, false⟩
  else
    let d := natVal (ipart ++ fparts.1)
    let ep := expScan fparts.2
    mkFinDec neg d (ep.1 - fparts.1.length) ep.2

/-- Whether the input starts a hexadecimal float: `0x`/`0X` followed by a hex
digit, or by `.` and a hex digit. -/
def hexStart (t : List Char) : Bool :=
  match t with
  | '0' :: x :: c :: rest =>
    (x = 'x' || x = 'X') &&
      (isHexDigit c ||
        (c = '.' && (match rest with | d :: _ => isHexDigit d | [] => false)))
  | _ => false

/-- Scan a hexadecimal mantissa (after the `0x` prefix has been dropped):
`hexdigits [. hexdigits] [p-exp]`. -/
def hexScan (neg : Bool) (t : List Char) : FScan :=
  let ipart := t.takeWhile isHexDigit
  let t1 := t.dropWhile isHexDigit
  let fparts : List Char × List Char :=
    match t1 with
    | '.' :: u => (u.takeWhile isHexDigit, u.dropWhile isHexDigit)
    | _ => ([], t1)
  let d := hexNatVal (ipart ++ fparts.1)
  let ep := pExpScan fparts.2
  mkFinHex neg d (ep.1 - 4 * fparts.1.length) ep.2

/-- Model of `strtod (s, &endptr)`: whitespace, optional sign, then one of
`infinity`/`inf`, `nan[(seq)]`, a hexadecimal float, or a decimal float. -/
def strtodM (s : List Char) : FScan :=
  let signed := splitSign (s.dropWhile isSpaceC)
  if matchesCI "infinity".data signed.2 then ⟨.inf signed.1, signed.2.drop 8, false⟩
  else if matchesCI "inf".data signed.2 then ⟨.inf signed.1, signed.2.drop 3, false⟩
  else if matchesCI "nan".data signed.2 then ⟨.nan, nanSeq (signed.2.drop 3), false⟩
  else if hexStart signed.2 then hexScan signed.1 (signed.2.drop 2)
  else decScan signed.1 signed.2 s

/-- `read_data_float64` from the source: reject buffers longer than
`FLOAT64_STR_MAXLEN`, NUL-terminate, `strtod`, reject on `errno` and on a
partial parse (`*endptr != '\0'`). -/
def read_data_float64 (data : List Char) : Option FloatVal :=
  if data.length > FLOAT64_STR_MAXLEN then none
  else
    let r := strtodM (cstr data)
    if r.erange ∨ r.rest ≠ [] then none
    else some r.value

/-- `read_data_string` from the source: copy the bytes verbatim and append a
terminator; never fails (allocation failure is not modelled). -/
def read_data_string (data : List Char) : IotData := .str data

/-! ## Path router -/

/-- Tokenisation performed by the source's repeated `strtok (path, "/")`
calls: the maximal nonempty runs of non-`/` characters, in order. -/
def strtokAux : List Char → List Char → List (List Char)
  | [], cur => if cur = [] then [] else [cur.reverse]
  | c :: rest, cur =>
    if c = '/' then
      (if cur = [] then strtokAux rest [] else cur.reverse :: strtokAux rest [])
    else strtokAux rest (c :: cur)

/-- The `strtok` token list of a URI path. -/
def strtokSegs (path : List Char) : List (List Char) := strtokAux path []

/-- `edgex_get_device_byname`: the external registry, modelled as a list of
devices searched by name. -/
def edgex_get_device_byname (reg : List Device) (name : List Char) : Option Device :=
  reg.find? (fun d => d.name == name)

/-- The nested resource-search loops of `parse_path` case 2, modelled
faithfully: the outer loop over the profile chain has no early exit, so the
`resource` cursor is overwritten by each profile's scan in turn and the
value that survives is the first name match within the LAST profile of the
chain (`none` when the chain is empty). -/
def chainScan (profiles : List DeviceProfile) (seg : List Char) : Option DeviceResource :=
  match profiles with
  | [] => none
  | [p] => p.device_resources.find? (fun r => r.name == seg)
  | _ :: rest => chainScan rest seg

/-- Result of `parse_path`: the found (device, resource) pair on success,
plus the observable side effects: registry lookups made, device handles
acquired (successful lookups), handles released (`edgex_free_device` on a
non-NULL device), and log lines. -/
structure ParseResult where
  found : Option (Device × DeviceResource)
  lookups : Nat
  acquired : Nat
  released : Nat
  logs : List LogEvent
deriving DecidableEq, Repr

/-- `parse_path` from the source: expect `/a1r/{device}/{resource}`;
segment 0 must equal `RESOURCE_SEG1`, segment 1 is looked up in the
registry, segment 2 is searched in the device's profile chain with
`chainScan`, and a fourth token is rejected as an extra segment.  On every
failure path any acquired device handle is freed
(`edgex_free_device (NULL)` is a no-op and not counted). -/
def parse_path (reg : List Device) (path : List Char) : ParseResult :=
  let dbg : LogEvent := (.debug, "URI")
  match strtokSegs path with
  | [] => ⟨none, 0, 0, 0, [dbg, (.info, "missing URI segment")]⟩
  | s0 :: rest0 =>
    if s0 = RESOURCE_SEG1 then
      match rest0 with
      | [] => ⟨none, 0, 0, 0, [dbg, (.info, "missing URI segment")]⟩
      | s1 :: rest1 =>
        match edgex_get_device_byname reg s1 with
        | none => ⟨none, 1, 0, 0, [dbg, (.info, "device not found")]⟩
        | some device =>
          match rest1 with
          | [] => ⟨none, 1, 1, 1, [dbg, (.info, "missing URI segment")]⟩
          | s2 :: rest2 =>
            match chainScan device.profile s2 with
            | none => ⟨none, 1, 1, 1, [dbg, (.info, "resource not found")]⟩
            | some resource =>
              if rest2 = [] then ⟨some (device, resource), 1, 1, 0, [dbg]⟩
              else ⟨none, 1, 1, 1, [dbg, (.info, "extra URI segment")]⟩
    else ⟨none, 0, 0, 0, [dbg, (.info, "invalid URI segment")]⟩

/-! ## Request handler -/

/-- The request methods that can reach `data_handler`: it is registered as
the catch-all unknown-resource handler (which libcoap invokes for PUT) and
explicitly for POST. -/
inductive Method where
  | put
  | post
deriving DecidableEq, Repr

/-- Result of one `data_handler` invocation: the response code (in
`COAP_RESPONSE_CODE` encoding), the optional diagnostic body added to the
response, the readings posted via `devsdk_post_readings`, and the side
effect counters (registry lookups, handle acquisitions and releases,
decoder invocations, log lines). -/
structure HandlerResult where
  code : Nat
  body : Option (List Char)
  publishes : List (List Char × List Char × IotData)
  lookups : Nat
  acquired : Nat
  released : Nat
  decodes : Nat
  logs : List LogEvent
deriving DecidableEq, Repr

/-- `data_handler` from the source.  Inputs: the registry, the request
method, the URI path, the content-format option (`none` when the option is
absent) and the payload (`coap_get_data` reports no data exactly when the
payload is empty).  Mirrors the source's control flow: PUT is rejected
first; then `parse_path`; then `coap_get_data`; then the content-format
switch on the resource type with the typed decode; `iot_data == NULL`
(absent payload or failed decode) yields 400 with `MSG_PAYLOAD_INVALID`;
success posts one reading and yields 2.04.  The `finish` label frees the
device handle (a no-op when routing failed, since `device` is then NULL). -/
def data_handler (reg : List Device) (method : Method) (path : List Char)
    (cfOpt : Option Nat) (payload : List Char) : HandlerResult :=
  if method = .put then
    ⟨COAP_RESPONSE_CODE 405, none, [], 0, 0, 0, 0, []⟩
  else
    let pr := parse_path reg path
    match pr.found with
    | none =>
      ⟨COAP_RESPONSE_CODE 404, none, [], pr.lookups, pr.acquired, pr.released, 0, pr.logs⟩
    | some (device, resource) =>
      if payload = [] then
        ⟨COAP_RESPONSE_CODE 400, some MSG_PAYLOAD_INVALID, [], pr.lookups, pr.acquired,
          pr.released + 1, 0, pr.logs ++ [(.info, "invalid data")]⟩
      else
        let cf := cfOpt.getD CONTENT_FORMAT_UNDEFINED
        match resource.type with
        | .eFloat64 =>
          if cf ≠ COAP_MEDIATYPE_TEXT_PLAIN then
            ⟨COAP_RESPONSE_CODE 415, none, [], pr.lookups, pr.acquired, pr.released + 1, 0,
              pr.logs⟩
          else
            match read_data_float64 payload with
            | none =>
              ⟨COAP_RESPONSE_CODE 400, some MSG_PAYLOAD_INVALID, [], pr.lookups, pr.acquired,
                pr.released + 1, 1, pr.logs ++ [(.info, "invalid float64")]⟩
            | some v =>
              ⟨COAP_RESPONSE_CODE 204, none, [(device.name, resource.name, .f64 v)],
                pr.lookups, pr.acquired, pr.released + 1, 1, pr.logs⟩
        | .eInt32 =>
          if cf ≠ COAP_MEDIATYPE_TEXT_PLAIN then
            ⟨COAP_RESPONSE_CODE 415, none, [], pr.lookups, pr.acquired, pr.released + 1, 0,
              pr.logs⟩
          else
            match read_data_int32 payload with
            | none =>
              ⟨COAP_RESPONSE_CODE 400, some MSG_PAYLOAD_INVALID, [], pr.lookups, pr.acquired,
                pr.released + 1, 1, pr.logs ++ [(.info, "invalid int32")]⟩
            | some v =>
              ⟨COAP_RESPONSE_CODE 204, none, [(device.name, resource.name, .i32 v)],
                pr.lookups, pr.acquired, pr.released + 1, 1, pr.logs⟩
        | .eString =>
          if cf ≠ COAP_MEDIATYPE_TEXT_PLAIN ∧ cf ≠ COAP_MEDIATYPE_APPLICATION_JSON then
            ⟨COAP_RESPONSE_CODE 415, none, [], pr.lookups, pr.acquired, pr.released + 1, 0,
              pr.logs⟩
          else
            ⟨COAP_RESPONSE_CODE 204, none, [(device.name, resource.name, read_data_string payload)],
              pr.lookups, pr.acquired, pr.released + 1, 1, pr.logs⟩
        | .eOther _ =>
          ⟨COAP_RESPONSE_CODE 500, none, [], pr.lookups, pr.acquired, pr.released + 1, 0,
            pr.logs ++ [(.error, "unsupported resource type")]⟩

/-! ## Configuration / initialization -/

/-- The `coap_security_mode_t` enum. -/
inductive SecurityMode where
  | psk
  | nosec
  | unknown
deriving DecidableEq, Repr

/-- `find_security_mode` from the source. -/
def find_security_mode (mode_text : String) : SecurityMode :=
  if mode_text = "PSK" then .psk
  else if mode_text = "NoSec" then .nosec
  else .unknown

/-- The three configuration values `coap_init` reads.  The service registers
defaults for all three keys before start-up (`main` installs
`SecurityMode = "NoSec"`, `PskKey = ""`, `CoapBindAddr = "0.0.0.0"`), so the
two string lookups always yield a string — an absent key surfaces as the
empty string — while the bind address is kept optional because the source
checks it for NULL. -/
structure CoapConfig where
  securityMode : String
  pskKey : String
  coapBindAddr : Option String
deriving DecidableEq, Repr

/-- The fields of `coap_driver` that `coap_init` fills in. -/
structure CoapDriverState where
  security_mode : SecurityMode
  psk_key : Option (List Nat)
  coap_bind_addr : Option String
deriving DecidableEq, Repr

/-- Value of one base64 alphabet character. -/
def b64val (c : Char) : Option Nat :=
  if 'A' ≤ c ∧ c ≤ 'Z' then some (c.toNat - 65)
  else if 'a' ≤ c ∧ c ≤ 'z' then some (c.toNat - 71)
  else if '0' ≤ c ∧ c ≤ '9' then some (c.toNat + 4)
  else if c = '+' then some 62
  else if c = '/' then some 63
  else none

/-- Base64 decoding (`iot_data_alloc_array_from_base64`): quartets of
alphabet characters yield three bytes; `=` padding truncates the final
quartet. -/
def b64decodeAux : List Char → List Nat
  | a :: b :: c :: d :: rest =>
    (match b64val a, b64val b with
     | some va, some vb =>
       let byte1 := va * 4 + vb / 16
       (match b64val c with
        | some vc =>
          let byte2 := (vb % 16) * 16 + vc / 4
          (match b64val d with
           | some vd => byte1 :: byte2 :: ((vc % 4) * 64 + vd) :: b64decodeAux rest
           | none => [byte1, byte2])
        | none => [byte1])
     | _, _ => [])
  | _ => []

/-- Decode a base64 text into raw key bytes. -/
def b64decode (s : String) : List Nat := b64decodeAux s.data

/-- `coap_init` from the source: validate the security mode (Unknown is
fatal), for PSK require a nonempty key text and decode it from base64, for
NoSec proceed with no key; then require a bind address.  Returns the
callback's boolean result and the driver state it populated. -/
def coap_init (config : CoapConfig) : Bool × CoapDriverState :=
  let mode := find_security_mode config.securityMode
  match mode with
  | .unknown => (false, ⟨mode, none, none⟩)
  | .psk =>
    if config.pskKey.length ≠ 0 then
      let key := b64decode config.pskKey
      match config.coapBindAddr with
      | some a => (true, ⟨mode, some key, some a⟩)
      | none => (false, ⟨mode, some key, none⟩)
    else (false, ⟨mode, none, none⟩)
  | .nosec =>
    match config.coapBindAddr with
    | some a => (true, ⟨mode, none, some a⟩)
    | none => (false, ⟨mode, none, none⟩)

/-! ## Spec-side notions used to state the claims -/

/-- The ASCII digit character of `n` (for `n ≤ 9`). -/
def digitChar : Nat → Char
  | 0 => '0'
  | 1 => '1'
  | 2 => '2'
  | 3 => '3'
  | 4 => '4'
  | 5 => '5'
  | 6 => '6'
  | 7 => '7'
  | 8 => '8'
  | _ => '9'

/-- Decimal digits of a natural number, most significant first. -/
def natDigits (n : Nat) : List Char :=
  if _h : n < 10 then [digitChar n]
  else natDigits (n / 10) ++ [digitChar (n % 10)]
termination_by n
decreasing_by
  exact Nat.div_lt_self (by omega) (by omega)

/-- The canonical ASCII base-10 rendering of an integer: optional minus
sign, then the decimal digits of the absolute value. -/
def renderInt (i : Int) : List Char :=
  if i < 0 then '-' :: natDigits i.natAbs else natDigits i.natAbs

/-- The integer a decimal ASCII string denotes (optional sign, nonempty
digit run), `none` for anything else.  Stated from the claim's words, to be
compared with the decoder. -/
def decValue (s : List Char) : Option Int :=
  match s with
  | [] => none
  | c :: t =>
    if c = '-' then
      (if t ≠ [] ∧ t.all isDigitC then some (-(natVal t : Int)) else none)
    else if c = '+' then
      (if t ≠ [] ∧ t.all isDigitC then some ((natVal t : Int)) else none)
    else
      (if (c :: t).all isDigitC then some ((natVal (c :: t) : Int)) else none)

/-- The claim's well-formedness condition on a request path: its `strtok`
tokenisation is exactly three (necessarily nonempty) segments whose first
segment is the fixed tag. -/
def wellFormed3 (path : List Char) : Bool :=
  match strtokSegs path with
  | [a, _, _] => a = RESOURCE_SEG1
  | _ => false

/-! ## Helper lemmas -/

theorem takeWhile_of_all {p : Char → Bool} :
    ∀ l : List Char, (∀ c ∈ l, p c = true) → l.takeWhile p = l := by
  intro l h
  induction l with
  | nil => rfl
  | cons c t ih =>
    rw [List.takeWhile_cons, h c (by simp)]
    simpa using ih (fun x hx => h x (by simp [hx]))

theorem dropWhile_of_all {p : Char → Bool} :
    ∀ l : List Char, (∀ c ∈ l, p c = true) → l.dropWhile p = [] := by
  intro l h
  induction l with
  | nil => rfl
  | cons c t ih =>
    rw [List.dropWhile_cons, h c (by simp)]
    simpa using ih (fun x hx => h x (by simp [hx]))

theorem isDigitC_toNat {c : Char} (h : isDigitC c = true) :
    48 ≤ c.toNat ∧ c.toNat ≤ 57 := by
  simpa [isDigitC] using h

theorem isDigitC_not_space {c : Char} (h : isDigitC c = true) : isSpaceC c = false := by
  cases hx : isSpaceC c
  · rfl
  · exfalso
    simp only [isSpaceC, Bool.or_eq_true, decide_eq_true_eq] at hx
    rcases hx with ((((h1 | h1) | h1) | h1) | h1) | h1 <;> subst h1 <;>
      exact absurd h (by decide)

theorem isDigitC_ne_special {c : Char} (h : isDigitC c = true) :
    c ≠ '-' ∧ c ≠ '+' ∧ c ≠ '\x00' := by
  refine ⟨?_, ?_, ?_⟩ <;> rintro rfl <;> exact absurd h (by decide)

theorem parse_path_balance (reg : List Device) (path : List Char) :
    ((parse_path reg path).found = none →
      (parse_path reg path).released = (parse_path reg path).acquired)
  ∧ (∀ x, (parse_path reg path).found = some x →
      (parse_path reg path).acquired = 1 ∧ (parse_path reg path).released = 0)
  ∧ (parse_path reg path).acquired ≤ 1 := by
  unfold parse_path
  repeat' split
  all_goals simp

theorem parse_path_logs (reg : List Device) (path : List Char) :
    (∀ e ∈ (parse_path reg path).logs, e.1 = LogLevel.debug ∨ e.1 = LogLevel.info)
  ∧ ((parse_path reg path).found = none →
      ∃ e ∈ (parse_path reg path).logs, e.1 = LogLevel.info)
  ∧ (∀ x, (parse_path reg path).found = some x →
      (parse_path reg path).logs = [(LogLevel.debug, "URI")]) := by
  unfold parse_path
  repeat' split
  all_goals simp

theorem info_in_append (l : List LogEvent) (s : String) :
    ∃ e ∈ l ++ [(LogLevel.info, s)], e.1 = LogLevel.info :=
  ⟨(LogLevel.info, s), by simp, rfl⟩

theorem handler_error_logs (reg : List Device) (m : Method) (path : List Char)
    (cfOpt : Option Nat) (payload : List Char) :
    ∀ e ∈ (data_handler reg m path cfOpt payload).logs, e.1 = LogLevel.error →
      e.2 = "unsupported resource type" ∧
      (data_handler reg m path cfOpt payload).code = COAP_RESPONSE_CODE 500 := by
  cases m with
  | put => simp [data_handler]
  | post =>
    unfold data_handler
    obtain ⟨hnoerr, hinfo, hsucc⟩ := parse_path_logs reg path
    cases hf : (parse_path reg path).found with
    | none =>
      simp only [hf]
      intro e he herr
      rcases hnoerr e he with h | h <;> simp_all
    | some x =>
      obtain ⟨d, r⟩ := x
      simp only [hf]
      repeat' split
      all_goals intro e he herr
      all_goals try dsimp only at he
      all_goals try rw [hsucc (d, r) hf] at he
      all_goals try simp_all
      all_goals rcases he with rfl | rfl <;> simp_all

theorem handler_info_logs (reg : List Device) (m : Method) (path : List Char)
    (cfOpt : Option Nat) (payload : List Char) :
    (data_handler reg m path cfOpt payload).code = COAP_RESPONSE_CODE 404 ∨
      (data_handler reg m path cfOpt payload).code = COAP_RESPONSE_CODE 400 →
    ∃ e ∈ (data_handler reg m path cfOpt payload).logs, e.1 = LogLevel.info := by
  cases m with
  | put =>
    intro h
    simp [data_handler, COAP_RESPONSE_CODE] at h
  | post =>
    unfold data_handler
    obtain ⟨hnoerr, hinfo, hsucc⟩ := parse_path_logs reg path
    cases hf : (parse_path reg path).found with
    | none =>
      simp only [hf]
      intro _
      exact hinfo hf
    | some x =>
      obtain ⟨d, r⟩ := x
      simp only [hf]
      repeat' split
      all_goals
        first
        | (intro h; simp [COAP_RESPONSE_CODE] at h; done)
        | (intro h; dsimp only; exact info_in_append _ _)

theorem handler_405_no_logs (reg : List Device) (m : Method) (path : List Char)
    (cfOpt : Option Nat) (payload : List Char) :
    (data_handler reg m path cfOpt payload).code = COAP_RESPONSE_CODE 405 →
    (data_handler reg m path cfOpt payload).logs = [] := by
  cases m with
  | put => intro _; rfl
  | post =>
    unfold data_handler
    cases hf : (parse_path reg path).found with
    | none =>
      simp only [hf]
      intro h
      simp [COAP_RESPONSE_CODE] at h
    | some x =>
      obtain ⟨d, r⟩ := x
      simp only [hf]
      repeat' split
      all_goals
        first
        | (intro h; rfl)
        | (intro h; simp [COAP_RESPONSE_CODE] at h)

theorem handler_415_debug_logs (reg : List Device) (m : Method) (path : List Char)
    (cfOpt : Option Nat) (payload : List Char) :
    (data_handler reg m path cfOpt payload).code = COAP_RESPONSE_CODE 415 →
    ∀ e ∈ (data_handler reg m path cfOpt payload).logs, e.1 = LogLevel.debug := by
  cases m with
  | put =>
    intro h
    simp [data_handler, COAP_RESPONSE_CODE] at h
  | post =>
    unfold data_handler
    obtain ⟨hnoerr, hinfo, hsucc⟩ := parse_path_logs reg path
    cases hf : (parse_path reg path).found with
    | none =>
      simp only [hf]
      intro h
      simp [COAP_RESPONSE_CODE] at h
    | some x =>
      obtain ⟨d, r⟩ := x
      simp only [hf]
      repeat' split
      all_goals
        first
        | (intro h; simp [COAP_RESPONSE_CODE] at h; done)
        | (intro h e he; dsimp only at he; rw [hsucc _ hf] at he; simp_all)


theorem natVal_append_digit (ds : List Char) (c : Char) :
    natVal (ds ++ [c]) = natVal ds * 10 + (c.toNat - 48) := by
  simp [natVal, List.foldl_append]

theorem digitChar_toNat {d : Nat} (h : d < 10) : (digitChar d).toNat = 48 + d := by
  interval_cases d <;> decide

theorem digitChar_isDigitC {d : Nat} (h : d < 10) : isDigitC (digitChar d) = true := by
  interval_cases d <;> decide

theorem natDigits_ne_nil (n : Nat) : natDigits n ≠ [] := by
  rw [natDigits]
  split
  · simp
  · simp

theorem natDigits_all (n : Nat) : ∀ c ∈ natDigits n, isDigitC c = true := by
  induction n using Nat.strong_induction_on with
  | _ n ih =>
    intro c hc
    rw [natDigits] at hc
    split at hc
    · next h =>
      simp only [List.mem_singleton] at hc
      subst hc
      exact digitChar_isDigitC h
    · next h =>
      rcases List.mem_append.mp hc with h1 | h1
      · exact ih (n / 10) (Nat.div_lt_self (by omega) (by omega)) c h1
      · simp only [List.mem_singleton] at h1
        subst h1
        exact digitChar_isDigitC (Nat.mod_lt _ (by omega))

theorem natVal_natDigits (n : Nat) : natVal (natDigits n) = n := by
  induction n using Nat.strong_induction_on with
  | _ n ih =>
    rw [natDigits]
    split
    · next h =>
      simp [natVal, digitChar_toNat h]
    · next h =>
      rw [natVal_append_digit, ih (n / 10) (Nat.div_lt_self (by omega) (by omega)),
        digitChar_toNat (Nat.mod_lt _ (by omega))]
      omega

theorem natDigits_length_le : ∀ k : Nat, 1 ≤ k → ∀ n : Nat, n < 10 ^ k →
    (natDigits n).length ≤ k := by
  intro k
  induction k with
  | zero => omega
  | succ k ih =>
    intro _ n hn
    rw [natDigits]
    split
    · simp
    · next h =>
      have hk : 1 ≤ k := by
        rcases Nat.eq_zero_or_pos k with rfl | hp
        · simp at hn; omega
        · exact hp
      have hdiv : n / 10 < 10 ^ k := by
        rw [Nat.div_lt_iff_lt_mul (by omega)]
        calc n < 10 ^ (k + 1) := hn
        _ = 10 ^ k * 10 := by rw [pow_succ]
      have := ih hk (n / 10) hdiv
      simp only [List.length_append, List.length_singleton]
      omega

theorem natVal_aux_lt (ds : List Char) : ∀ a : Nat, (∀ c ∈ ds, isDigitC c = true) →
    ds.foldl (fun a c => a * 10 + (c.toNat - 48)) a < (a + 1) * 10 ^ ds.length := by
  induction ds with
  | nil => intro a _; simp
  | cons c t ih =>
    intro a hall
    have hc : isDigitC c = true := hall c (by simp)
    have hd : c.toNat - 48 ≤ 9 := by
      have := isDigitC_toNat hc
      omega
    simp only [List.foldl_cons, List.length_cons]
    calc t.foldl (fun a c => a * 10 + (c.toNat - 48)) (a * 10 + (c.toNat - 48))
        < (a * 10 + (c.toNat - 48) + 1) * 10 ^ t.length :=
          ih _ (fun x hx => hall x (by simp [hx]))
      _ ≤ (a + 1) * 10 ^ (t.length + 1) := by
          rw [pow_succ]
          have h1 : a * 10 + (c.toNat - 48) + 1 ≤ (a + 1) * 10 := by omega
          calc (a * 10 + (c.toNat - 48) + 1) * 10 ^ t.length
              ≤ ((a + 1) * 10) * 10 ^ t.length := Nat.mul_le_mul_right _ h1
            _ = (a + 1) * (10 ^ t.length * 10) := by ring

theorem natVal_lt (ds : List Char) (hall : ∀ c ∈ ds, isDigitC c = true) :
    natVal ds < 10 ^ ds.length := by
  have := natVal_aux_lt ds 0 hall
  simpa [natVal] using this

theorem cstr_of_no_nul (ds : List Char) (h : ∀ c ∈ ds, c ≠ '\x00') : cstr ds = ds := by
  unfold cstr
  apply takeWhile_of_all
  intro c hc
  simp [h c hc]

theorem strtol10_digits (ds : List Char) (hne : ds ≠ [])
    (hall : ∀ c ∈ ds, isDigitC c = true)
    (hb : (natVal ds : Int) ≤ 9223372036854775807) :
    strtol10 ds = ⟨(natVal ds : Int), [], false⟩ := by
  obtain ⟨c, t, rfl⟩ := List.exists_cons_of_ne_nil hne
  have hc : isDigitC c = true := hall c (by simp)
  obtain ⟨hm, hp, _⟩ := isDigitC_ne_special hc
  have h1 : (c :: t).dropWhile isSpaceC = c :: t := by
    rw [List.dropWhile_cons, isDigitC_not_space hc]
    simp
  have h2 : splitSign (c :: t) = (false, c :: t) := by
    simp only [splitSign]
    rw [if_neg hm, if_neg hp]
  have h3 : (c :: t).takeWhile isDigitC = c :: t := takeWhile_of_all _ hall
  have h4 : (c :: t).dropWhile isDigitC = [] := dropWhile_of_all _ hall
  have hgt : ¬((natVal (c :: t) : Int) > 9223372036854775807) := by omega
  have hlt : ¬((natVal (c :: t) : Int) < -9223372036854775808) := by omega
  simp [strtol10, h1, h2, h3, h4, LONG_MAX, LONG_MIN, hgt, hlt]

theorem strtol10_neg_digits (ds : List Char) (hne : ds ≠ [])
    (hall : ∀ c ∈ ds, isDigitC c = true)
    (hb : (natVal ds : Int) ≤ 9223372036854775807) :
    strtol10 ('-' :: ds) = ⟨-(natVal ds : Int), [], false⟩ := by
  have h1 : ('-' :: ds).dropWhile isSpaceC = '-' :: ds := by
    rw [List.dropWhile_cons]
    simp [show isSpaceC '-' = false from by decide]
  have h2 : splitSign ('-' :: ds) = (true, ds) := by
    simp [splitSign]
  have h3 := takeWhile_of_all ds hall
  have h4 := dropWhile_of_all ds hall
  have hgt : ¬(-(natVal ds : Int) > 9223372036854775807) := by omega
  have hlt : ¬(-(natVal ds : Int) < -9223372036854775808) := by omega
  simp [strtol10, h1, h2, h3, h4, hne, LONG_MAX, LONG_MIN, hgt, hlt]

theorem strtol10_plus_digits (ds : List Char) (hne : ds ≠ [])
    (hall : ∀ c ∈ ds, isDigitC c = true)
    (hb : (natVal ds : Int) ≤ 9223372036854775807) :
    strtol10 ('+' :: ds) = ⟨(natVal ds : Int), [], false⟩ := by
  have h1 : ('+' :: ds).dropWhile isSpaceC = '+' :: ds := by
    rw [List.dropWhile_cons]
    simp [show isSpaceC '+' = false from by decide]
  have h2 : splitSign ('+' :: ds) = (false, ds) := by
    simp [splitSign]
  have h3 := takeWhile_of_all ds hall
  have h4 := dropWhile_of_all ds hall
  have hgt : ¬((natVal ds : Int) > 9223372036854775807) := by omega
  have hlt : ¬((natVal ds : Int) < -9223372036854775808) := by omega
  simp [strtol10, h1, h2, h3, h4, hne, LONG_MAX, LONG_MIN, hgt, hlt]

theorem read_data_int32_some (data : List Char) (w : Int)
    (hlen : data.length ≤ 11) (hs : strtol10 (cstr data) = ⟨w, [], false⟩)
    (hlo : -2147483648 ≤ w) (hhi : w ≤ 2147483647) :
    read_data_int32 data = some w := by
  unfold read_data_int32
  rw [if_neg (by simp only [INT32_STR_MAXLEN]; omega), hs]
  show (if (false : Bool) = true ∨ ([] : List Char) ≠ [] ∨ w < INT32_MIN ∨ w > INT32_MAX
      then none else some w) = some w
  have hcond : ¬((false : Bool) = true ∨ ([] : List Char) ≠ [] ∨
      w < INT32_MIN ∨ w > INT32_MAX) := by
    rintro (hc | hc | hc | hc)
    · simp at hc
    · exact hc rfl
    · simp only [INT32_MIN] at hc; omega
    · simp only [INT32_MAX] at hc; omega
  rw [if_neg hcond]

theorem read_data_int32_none_of_range (data : List Char) (w : Int)
    (hlen : data.length ≤ 11) (hs : strtol10 (cstr data) = ⟨w, [], false⟩)
    (hout : w < -2147483648 ∨ w > 2147483647) :
    read_data_int32 data = none := by
  unfold read_data_int32
  rw [if_neg (by simp only [INT32_STR_MAXLEN]; omega), hs]
  show (if (false : Bool) = true ∨ ([] : List Char) ≠ [] ∨ w < INT32_MIN ∨ w > INT32_MAX
      then none else some w) = none
  rw [if_pos (Or.inr (Or.inr (by simp only [INT32_MIN, INT32_MAX]; exact hout)))]

theorem natVal_le_long (t : List Char) (hall : ∀ x ∈ t, isDigitC x = true)
    (htl : t.length ≤ 11) : (natVal t : Int) ≤ 9223372036854775807 := by
  have h1 := natVal_lt t hall
  have h2 : (10 : Nat) ^ t.length ≤ 10 ^ 11 := Nat.pow_le_pow_right (by omega) htl
  have h3 : natVal t < 10 ^ 11 := lt_of_lt_of_le h1 h2
  have h4 : (10 : Nat) ^ 11 = 100000000000 := by norm_num
  omega

theorem renderInt_reads_back (i : Int) (h1 : -2147483648 ≤ i) (h2 : i ≤ 2147483647) :
    read_data_int32 (renderInt i) = some i := by
  by_cases hneg : i < 0
  · have hcast : (i.natAbs : Int) = -i := by omega
    have hall := natDigits_all i.natAbs
    have hne := natDigits_ne_nil i.natAbs
    have hval : natVal (natDigits i.natAbs) = i.natAbs := natVal_natDigits _
    have hnlt : i.natAbs < 10 ^ 10 := by
      have h5 : (10 : Nat) ^ 10 = 10000000000 := by norm_num
      omega
    have hlen : (natDigits i.natAbs).length ≤ 10 :=
      natDigits_length_le 10 (by omega) _ hnlt
    have hnul : ∀ c ∈ '-' :: natDigits i.natAbs, c ≠ '\x00' := by
      intro c hc
      rcases List.mem_cons.mp hc with rfl | hmem
      · decide
      · exact (isDigitC_ne_special (hall c hmem)).2.2
    have hb : (natVal (natDigits i.natAbs) : Int) ≤ 9223372036854775807 := by
      rw [hval]; omega
    have hs : strtol10 (cstr ('-' :: natDigits i.natAbs)) = ⟨i, [], false⟩ := by
      rw [cstr_of_no_nul _ hnul, strtol10_neg_digits _ hne hall hb, hval]
      congr 1
      omega
    unfold renderInt
    rw [if_pos hneg]
    exact read_data_int32_some _ i (by simp; omega) hs (by omega) (by omega)
  · have hcast : (i.natAbs : Int) = i := by omega
    have hall := natDigits_all i.natAbs
    have hne := natDigits_ne_nil i.natAbs
    have hval : natVal (natDigits i.natAbs) = i.natAbs := natVal_natDigits _
    have hnlt : i.natAbs < 10 ^ 10 := by
      have h5 : (10 : Nat) ^ 10 = 10000000000 := by norm_num
      omega
    have hlen : (natDigits i.natAbs).length ≤ 10 :=
      natDigits_length_le 10 (by omega) _ hnlt
    have hnul : ∀ c ∈ natDigits i.natAbs, c ≠ '\x00' := fun c hc =>
      (isDigitC_ne_special (hall c hc)).2.2
    have hb : (natVal (natDigits i.natAbs) : Int) ≤ 9223372036854775807 := by
      rw [hval]; omega
    have hs : strtol10 (cstr (natDigits i.natAbs)) = ⟨i, [], false⟩ := by
      rw [cstr_of_no_nul _ hnul, strtol10_digits _ hne hall hb, hval, hcast]
    unfold renderInt
    rw [if_neg hneg]
    exact read_data_int32_some _ i (by omega) hs (by omega) (by omega)

theorem decValue_out_of_range_rejected (s : List Char) (v : Int)
    (hv : decValue s = some v) (hout : v < -2147483648 ∨ v > 2147483647) :
    read_data_int32 s = none := by
  by_cases hl : s.length > 11
  · unfold read_data_int32
    rw [if_pos (by simp only [INT32_STR_MAXLEN]; omega)]
  · rcases s with _ | ⟨c, t⟩
    · simp [decValue] at hv
    · simp only [decValue] at hv
      by_cases hm : c = '-'
      · subst hm
        rw [if_pos rfl] at hv
        by_cases hcond : t ≠ [] ∧ t.all isDigitC
        · obtain ⟨hne, hallb⟩ := hcond
          rw [if_pos ⟨hne, hallb⟩] at hv
          have hall : ∀ x ∈ t, isDigitC x = true := fun x hx =>
            List.all_eq_true.mp hallb x hx
          have hvv : -(natVal t : Int) = v := by
            injection hv
          have hnul : ∀ x ∈ '-' :: t, x ≠ '\x00' := by
            intro x hx
            rcases List.mem_cons.mp hx with rfl | hxx
            · decide
            · exact (isDigitC_ne_special (hall x hxx)).2.2
          have htl : t.length ≤ 10 := by
            simp only [List.length_cons] at hl
            omega
          have hb := natVal_le_long t hall (by omega)
          have hs : strtol10 (cstr ('-' :: t)) = ⟨v, [], false⟩ := by
            rw [cstr_of_no_nul _ hnul, strtol10_neg_digits t hne hall hb, hvv]
          exact read_data_int32_none_of_range _ v (by simp; omega) hs hout
        · rw [if_neg hcond] at hv
          exact absurd hv (by simp)
      · rw [if_neg hm] at hv
        by_cases hp : c = '+'
        · subst hp
          rw [if_pos rfl] at hv
          by_cases hcond : t ≠ [] ∧ t.all isDigitC
          · obtain ⟨hne, hallb⟩ := hcond
            rw [if_pos ⟨hne, hallb⟩] at hv
            have hall : ∀ x ∈ t, isDigitC x = true := fun x hx =>
              List.all_eq_true.mp hallb x hx
            have hvv : (natVal t : Int) = v := by
              injection hv
            have hnul : ∀ x ∈ '+' :: t, x ≠ '\x00' := by
              intro x hx
              rcases List.mem_cons.mp hx with rfl | hxx
              · decide
              · exact (isDigitC_ne_special (hall x hxx)).2.2
            have htl : t.length ≤ 10 := by
              simp only [List.length_cons] at hl
              omega
            have hb := natVal_le_long t hall (by omega)
            have hs : strtol10 (cstr ('+' :: t)) = ⟨v, [], false⟩ := by
              rw [cstr_of_no_nul _ hnul, strtol10_plus_digits t hne hall hb, hvv]
            exact read_data_int32_none_of_range _ v (by simp; omega) hs hout
          · rw [if_neg hcond] at hv
            exact absurd hv (by simp)
        · rw [if_neg hp] at hv
          by_cases hcond : (c :: t).all isDigitC
          · rw [if_pos hcond] at hv
            have hall : ∀ x ∈ c :: t, isDigitC x = true := fun x hx =>
              List.all_eq_true.mp hcond x hx
            have hvv : (natVal (c :: t) : Int) = v := by
              injection hv
            have hnul : ∀ x ∈ c :: t, x ≠ '\x00' := fun x hx =>
              (isDigitC_ne_special (hall x hx)).2.2
            have hb := natVal_le_long (c :: t) hall (by omega)
            have hs : strtol10 (cstr (c :: t)) = ⟨v, [], false⟩ := by
              rw [cstr_of_no_nul _ hnul, strtol10_digits _ (by simp) hall hb, hvv]
            exact read_data_int32_none_of_range _ v (by omega) hs hout
          · rw [if_neg hcond] at hv
            exact absurd hv (by simp)

/-- A registry with one device whose profile chain has two profiles: the
first holds resource `temp` (Float64), the second holds `other` (Int32) and
`odd` (an unsupported kind). -/
def exDevice : Device :=
  ⟨"dev".data, [⟨[⟨"temp".data, .eFloat64⟩]⟩,
                ⟨[⟨"other".data, .eInt32⟩, ⟨"odd".data, .eOther 3⟩]⟩]⟩

/-- The example registry containing only `exDevice`. -/
def exReg : List Device := [exDevice]

/-! ## Claim theorems -/

/-- C10: for the empty input buffer (length 0), the Float64 decoder succeeds
and returns the value 0.0 rather than reporting a decode failure: `strtod`
performs an empty conversion, leaves `endptr` at the start of the string —
which is the NUL terminator — and returns 0.0, so the full-consumption check
passes. -/
theorem C10_empty_buffer_accepted : read_data_float64 [] = some (.fin 0) := by decide

/-- C8: a PUT request is answered 4.05 method-not-allowed before any other
processing: the handler result carries no lookup, no acquisition, no
release, no decode, no publish and no log line, for every registry, path,
content format and payload. -/
theorem C8_put_rejected_without_routing (reg : List Device) (path : List Char)
    (cfOpt : Option Nat) (payload : List Char) :
    data_handler reg .put path cfOpt payload =
      ⟨COAP_RESPONSE_CODE 405, none, [], 0, 0, 0, 0, []⟩ := rfl

/-- C6: the Float64 decoder rejects every buffer longer than 24 bytes;
it also rejects every buffer whose `strtod` scan does not consume the whole
(NUL-terminated) string, and every buffer whose scan over- or underflows the
double range (`ERANGE`). -/
theorem C6_float64_rejections :
    (∀ data : List Char, data.length > 24 → read_data_float64 data = none)
  ∧ (∀ data : List Char, (strtodM (cstr data)).rest ≠ [] → read_data_float64 data = none)
  ∧ (∀ data : List Char, (strtodM (cstr data)).erange = true → read_data_float64 data = none) := by
  refine ⟨?_, ?_, ?_⟩
  · intro data h
    unfold read_data_float64
    rw [if_pos (by simpa [FLOAT64_STR_MAXLEN] using h)]
  · intro data h
    unfold read_data_float64
    by_cases hl : data.length > FLOAT64_STR_MAXLEN
    · rw [if_pos hl]
    · rw [if_neg hl, if_pos (Or.inr h)]
  · intro data h
    unfold read_data_float64
    by_cases hl : data.length > FLOAT64_STR_MAXLEN
    · rw [if_pos hl]
    · rw [if_neg hl, if_pos (Or.inl h)]

/-- Witness for C6 at concrete buffers: a 25-byte buffer, a buffer with
trailing garbage after the literal, and an overflowing literal. -/
theorem C6_float64_rejections_witness :
    ((List.replicate 25 '1').length > 24 ∧ read_data_float64 (List.replicate 25 '1') = none)
  ∧ ((strtodM (cstr "1.5x".data)).rest ≠ [] ∧ read_data_float64 "1.5x".data = none)
  ∧ ((strtodM (cstr "1e400".data)).erange = true ∧ read_data_float64 "1e400".data = none) :=
  ⟨⟨by decide, C6_float64_rejections.1 _ (by decide)⟩,
   ⟨by decide, C6_float64_rejections.2.1 _ (by decide)⟩,
   ⟨by decide, C6_float64_rejections.2.2 _ (by decide)⟩⟩

/-- C7: at the ConfigLoaded step, `coap_init` fails when the configured
security mode is neither "PSK" nor "NoSec"; it fails when the mode is "PSK"
and the configured key text is empty (the value an absent key surfaces as,
given the registered defaults); and when the mode is "NoSec" (and the bind
address is present) it succeeds with no key installed. -/
theorem C7_security_mode_validation :
    (∀ c : CoapConfig, c.securityMode ≠ "PSK" → c.securityMode ≠ "NoSec" →
      (coap_init c).1 = false)
  ∧ (∀ c : CoapConfig, c.securityMode = "PSK" → c.pskKey = "" → (coap_init c).1 = false)
  ∧ (∀ (c : CoapConfig) (a : String), c.securityMode = "NoSec" → c.coapBindAddr = some a →
      (coap_init c).1 = true ∧ (coap_init c).2.psk_key = none) := by
  refine ⟨?_, ?_, ?_⟩
  · intro c h1 h2
    unfold coap_init find_security_mode
    simp [h1, h2]
  · intro c h1 h2
    unfold coap_init find_security_mode
    simp [h1, h2]
  · intro c a h1 h2
    unfold coap_init find_security_mode
    simp [h1, h2]

/-- Witness for C7 at concrete configurations: an unknown mode, PSK with an
empty key, and NoSec with a bind address. -/
theorem C7_security_mode_validation_witness :
    (coap_init ⟨"DTLS", "k", some "0.0.0.0"⟩).1 = false
  ∧ (coap_init ⟨"PSK", "", some "0.0.0.0"⟩).1 = false
  ∧ ((coap_init ⟨"NoSec", "", some "0.0.0.0"⟩).1 = true
      ∧ (coap_init ⟨"NoSec", "", some "0.0.0.0"⟩).2.psk_key = none) :=
  ⟨C7_security_mode_validation.1 _ (by decide) (by decide),
   C7_security_mode_validation.2.1 _ rfl rfl,
   C7_security_mode_validation.2.2 _ _ rfl rfl⟩

/-- C1: the claim fails on the code.  `exDevice`'s profile chain does hold a
resource named `temp` (in its first profile), the device is found in the
registry, and the path is a well-formed `/a1r/dev/temp` — yet `parse_path`
reports resource-not-found, because the outer loop over the profile chain
lacks a break: the `resource` cursor is overwritten by the scan of each
following profile, so only a match in the last profile of the chain
survives.  This contradicts the function's own contract ("return true if
URI format OK, and device and resource found"). -/
theorem C1_profile_chain_match_dropped :
    (∃ p ∈ exDevice.profile, ∃ r ∈ p.device_resources, r.name = "temp".data)
  ∧ edgex_get_device_byname exReg "dev".data = some exDevice
  ∧ (parse_path exReg "a1r/dev/temp".data).found = none := by decide

/-- C3: on every terminal outcome of `data_handler`, the number of device
handles released equals the number acquired (and at most one handle is ever
acquired), and the publish collaborator is called exactly once on the
success outcome (2.04) and never on any other outcome. -/
theorem C3_release_once_publish_once (reg : List Device) (m : Method) (path : List Char)
    (cfOpt : Option Nat) (payload : List Char) :
    ((data_handler reg m path cfOpt payload).released =
      (data_handler reg m path cfOpt payload).acquired)
  ∧ ((data_handler reg m path cfOpt payload).acquired ≤ 1)
  ∧ ((data_handler reg m path cfOpt payload).publishes.length =
      if (data_handler reg m path cfOpt payload).code = COAP_RESPONSE_CODE 204 then 1 else 0) := by
  cases m with
  | put => simp [data_handler, COAP_RESPONSE_CODE]
  | post =>
    unfold data_handler
    obtain ⟨hb2, hb, hb3⟩ := parse_path_balance reg path
    cases hf : (parse_path reg path).found with
    | none =>
      simp only [hf]
      simp [hb2 hf, hb3, COAP_RESPONSE_CODE]
    | some x =>
      obtain ⟨d, r⟩ := x
      obtain ⟨ha, hr⟩ := hb _ hf
      simp only [hf]
      repeat' split
      all_goals simp_all [COAP_RESPONSE_CODE]

/-- C4: for every path whose `strtok` tokenisation is not exactly three
nonempty segments with the fixed tag first, `parse_path` reports a routing
failure, and every device handle it acquired has been released when it
returns. -/
theorem C4_malformed_path_rejected (reg : List Device) (path : List Char)
    (h : wellFormed3 path = false) :
    (parse_path reg path).found = none ∧
      (parse_path reg path).released = (parse_path reg path).acquired := by
  suffices hf : (parse_path reg path).found = none from
    ⟨hf, (parse_path_balance reg path).1 hf⟩
  unfold wellFormed3 at h
  unfold parse_path
  repeat' split
  all_goals simp_all

/-- Witness for C4 at a concrete path: a fully valid 3-segment match with a
trailing extra segment is rejected with the acquired handle released. -/
theorem C4_malformed_path_rejected_witness :
    wellFormed3 "a1r/dev/other/x".data = false
  ∧ ((parse_path exReg "a1r/dev/other/x".data).found = none
      ∧ (parse_path exReg "a1r/dev/other/x".data).released =
          (parse_path exReg "a1r/dev/other/x".data).acquired) :=
  ⟨by decide, C4_malformed_path_rejected exReg _ (by decide)⟩

/-- C2: counterexample to the claim.  A routable request (`/a1r/dev/other`,
an Int32 resource) with a declared content format of application/json —
unacceptable for an Int32 resource — and an entirely absent payload is
answered 4.00 bad-request, not 4.15 unsupported-media-type: the absent
payload short-circuits past the content-format check, which the claim says
is applied first. -/
theorem C2_absent_payload_counterexample :
    (data_handler exReg .post "a1r/dev/other".data (some 50) []).code = COAP_RESPONSE_CODE 400
  ∧ (data_handler exReg .post "a1r/dev/other".data (some 50) []).code ≠
      COAP_RESPONSE_CODE 415 := by decide

/-- C2 (amended): for every request that passes the method check and routes
to a device/resource pair, an entirely absent payload makes the handler skip
the content-format check altogether and answer 4.00 bad-request with the
fixed diagnostic body, whatever the declared content format; no decode and
no publish happen, and the handle is released. -/
theorem C2_absent_payload_bad_request (reg : List Device) (path : List Char)
    (cfOpt : Option Nat) (d : Device) (r : DeviceResource)
    (hf : (parse_path reg path).found = some (d, r)) :
    data_handler reg .post path cfOpt [] =
      ⟨COAP_RESPONSE_CODE 400, some MSG_PAYLOAD_INVALID, [],
        (parse_path reg path).lookups, (parse_path reg path).acquired,
        (parse_path reg path).released + 1, 0,
        (parse_path reg path).logs ++ [(.info, "invalid data")]⟩ := by
  unfold data_handler
  simp [hf]

/-- Witness for the amended C2 at the concrete routable request with a
mismatched content format and absent payload. -/
theorem C2_absent_payload_bad_request_witness :
    (parse_path exReg "a1r/dev/other".data).found =
      some (exDevice, ⟨"other".data, .eInt32⟩)
  ∧ data_handler exReg .post "a1r/dev/other".data (some 50) [] =
      ⟨COAP_RESPONSE_CODE 400, some MSG_PAYLOAD_INVALID, [],
        (parse_path exReg "a1r/dev/other".data).lookups,
        (parse_path exReg "a1r/dev/other".data).acquired,
        (parse_path exReg "a1r/dev/other".data).released + 1, 0,
        (parse_path exReg "a1r/dev/other".data).logs ++ [(.info, "invalid data")]⟩ :=
  ⟨by decide,
   C2_absent_payload_bad_request exReg "a1r/dev/other".data (some 50) exDevice
     ⟨"other".data, .eInt32⟩ (by decide)⟩

/-- C9: counterexample to the claim.  The unsupported-declared-kind failure
(resource `odd` of kind `eOther`) is logged at error severity and produces
no info-severity log at all, while the claim says every listed per-request
failure is logged at info severity, not error severity. -/
theorem C9_unsupported_kind_logs_error :
    ((LogLevel.error, "unsupported resource type") ∈
      (data_handler exReg .post "a1r/dev/odd".data (some 0) "1".data).logs)
  ∧ (∀ e ∈ (data_handler exReg .post "a1r/dev/odd".data (some 0) "1".data).logs,
      e.1 ≠ LogLevel.info) := by decide

/-- C9 (amended): an error-severity log occurs only for the
unsupported-declared-kind failure (and then the outcome is 5.00); the
not-found and bad-request outcomes (malformed path, unknown device/resource,
absent payload, decode failure) always carry an info-severity log; the
method-not-allowed outcome logs nothing at all; and the
unsupported-media-type outcome logs nothing beyond the debug URI line. -/
theorem C9_amended_log_severities (reg : List Device) (m : Method) (path : List Char)
    (cfOpt : Option Nat) (payload : List Char) :
    (∀ e ∈ (data_handler reg m path cfOpt payload).logs, e.1 = LogLevel.error →
      e.2 = "unsupported resource type" ∧
        (data_handler reg m path cfOpt payload).code = COAP_RESPONSE_CODE 500)
  ∧ ((data_handler reg m path cfOpt payload).code = COAP_RESPONSE_CODE 404 ∨
      (data_handler reg m path cfOpt payload).code = COAP_RESPONSE_CODE 400 →
      ∃ e ∈ (data_handler reg m path cfOpt payload).logs, e.1 = LogLevel.info)
  ∧ ((data_handler reg m path cfOpt payload).code = COAP_RESPONSE_CODE 405 →
      (data_handler reg m path cfOpt payload).logs = [])
  ∧ ((data_handler reg m path cfOpt payload).code = COAP_RESPONSE_CODE 415 →
      ∀ e ∈ (data_handler reg m path cfOpt payload).logs, e.1 = LogLevel.debug) :=
  ⟨handler_error_logs reg m path cfOpt payload,
   handler_info_logs reg m path cfOpt payload,
   handler_405_no_logs reg m path cfOpt payload,
   handler_415_debug_logs reg m path cfOpt payload⟩

/-- Witness for the amended C9: a not-found request carries an info log, and
a PUT request produces no log. -/
theorem C9_amended_log_severities_witness :
    (∃ e ∈ (data_handler exReg .post "a1r/nope".data (some 0) "1".data).logs,
      e.1 = LogLevel.info)
  ∧ (data_handler exReg .put "a1r/dev/other".data (some 0) "1".data).logs = [] :=
  ⟨(C9_amended_log_severities exReg .post "a1r/nope".data (some 0) "1".data).2.1
      (by decide),
   (C9_amended_log_severities exReg .put "a1r/dev/other".data (some 0) "1".data).2.2.1
      (by decide)⟩

/-- C5: the Int32 decoder round-trips every integer in the signed 32-bit
range rendered as its ASCII base-10 decimal string; and for every decimal
ASCII string (optional sign, digits) denoting a value outside that range,
it reports a decode failure even though the underlying `strtol` parse at
`long` precision would succeed (strings short enough to pass the length
gate are parsed and rejected by the explicit range check; longer strings
are rejected by the 11-byte length gate). -/
theorem C5_int32_roundtrip_and_range :
    (∀ i : Int, -2147483648 ≤ i → i ≤ 2147483647 →
      read_data_int32 (renderInt i) = some i)
  ∧ (∀ (s : List Char) (v : Int), decValue s = some v →
      (v < -2147483648 ∨ v > 2147483647) → read_data_int32 s = none) :=
  ⟨renderInt_reads_back, decValue_out_of_range_rejected⟩

/-- Witness for C5 at concrete values: the most negative int32 round-trips,
and the first out-of-range positive decimal string is rejected. -/
theorem C5_int32_roundtrip_and_range_witness :
    read_data_int32 (renderInt (-2147483648)) = some (-2147483648)
  ∧ (decValue "2147483648".data = some 2147483648
      ∧ read_data_int32 "2147483648".data = none) :=
  ⟨C5_int32_roundtrip_and_range.1 (-2147483648) (by norm_num) (by norm_num),
   ⟨by decide,
    C5_int32_roundtrip_and_range.2 "2147483648".data 2147483648 (by decide)
      (by norm_num)⟩⟩
